import Mathlib

/-!
Verification development for the speed-test client/server pair
(src/server.py, src/client.py).

The wire formats, the UDP/TCP handler loops and the retry loops are
embedded shallowly: bytes are natural numbers below 256, datagrams are
lists of bytes, stateful loops become explicit folds over event traces,
and fallible decoding returns Option.  Machine integers never overflow
here because the Python source works with arbitrary-precision ints and
struct.pack refuses out-of-range values; range hypotheses appear where
the struct format bounds a field.
-/

namespace SpeedTest

/-- Magic cookie constant shared by client and server (0xabcddcba). -/
def OFFER_MAGIC_COOKIE : Nat := 0xabcddcba

/-- Offer message type byte. -/
def OFFER_MESSAGE_TYPE : Nat := 0x2

/-- Request message type byte. -/
def REQUEST_MESSAGE_TYPE : Nat := 0x3

/-- Payload message type byte. -/
def PAYLOAD_MESSAGE_TYPE : Nat := 0x4

/-- Port where the server sends broadcast offers (server.py line 15). -/
def UDP_BROADCAST_PORT : Nat := 13117

/-- Port where the server listens for UDP requests (server.py line 16). -/
def UDP_SERVER_PORT : Nat := 20001

/-- Port where the server listens for TCP connections (server.py line 17). -/
def TCP_SERVER_PORT : Nat := 20002

/-- Big-endian byte encoding of a natural number into a fixed width,
most significant byte first.  This is how struct.pack lays out the
fixed-width fields I (width 4), B (width 1), H (width 2), Q (width 8)
in network byte order. -/
def beBytes : Nat → Nat → List Nat
  | 0, _ => []
  | w + 1, n => n / 256 ^ w % 256 :: beBytes w (n % 256 ^ w)

/-- Big-endian reader: consumes a fixed number of bytes from the front
of a buffer, accumulating their value; fails when the buffer is too
short.  This is the field-reading half of struct.unpack. -/
def readBE : Nat → Nat → List Nat → Option (Nat × List Nat)
  | 0, acc, rest => some (acc, rest)
  | _ + 1, _, [] => none
  | w + 1, acc, b :: bs => readBE w (acc * 256 + b) bs


/-- Embedding of struct.pack with format !IBHH (u32, u8, u16, u16,
network byte order), as used for the Offer message (server.py line 40). -/
def pack_IBHH (a b c d : Nat) : List Nat :=
  beBytes 4 a ++ beBytes 1 b ++ beBytes 2 c ++ beBytes 2 d

/-- Embedding of struct.pack with format !IBQQ (u32, u8, u64, u64),
as used for the Request message (client.py line 141) and the Payload
header (server.py line 147). -/
def pack_IBQQ (a b c d : Nat) : List Nat :=
  beBytes 4 a ++ beBytes 1 b ++ beBytes 8 c ++ beBytes 8 d

/-- Embedding of struct.unpack with format !IBHH: requires the buffer
to hold exactly 9 bytes (struct.unpack raises otherwise, which the
callers turn into an ignored datagram). -/
def unpack_IBHH (data : List Nat) : Option (Nat × Nat × Nat × Nat) :=
  match readBE 4 0 data with
  | none => none
  | some (a, r1) =>
    match readBE 1 0 r1 with
    | none => none
    | some (b, r2) =>
      match readBE 2 0 r2 with
      | none => none
      | some (c, r3) =>
        match readBE 2 0 r3 with
        | none => none
        | some (d, r4) => if r4 = [] then some (a, b, c, d) else none

/-- Embedding of struct.unpack with format !IBQQ: requires the buffer
to hold exactly 21 bytes. -/
def unpack_IBQQ (data : List Nat) : Option (Nat × Nat × Nat × Nat) :=
  match readBE 4 0 data with
  | none => none
  | some (a, r1) =>
    match readBE 1 0 r1 with
    | none => none
    | some (b, r2) =>
      match readBE 8 0 r2 with
      | none => none
      | some (c, r3) =>
        match readBE 8 0 r3 with
        | none => none
        | some (d, r4) => if r4 = [] then some (a, b, c, d) else none

/-- Client-side Offer decoding (client.py lines 58 to 61): unpack the
datagram with format !IBHH and accept it only when both the magic
cookie and the message type match; anything else is dropped. -/
def decodeOffer (data : List Nat) : Option (Nat × Nat × Nat × Nat) :=
  match unpack_IBHH data with
  | none => none
  | some (m, t, u, v) =>
    if m = OFFER_MAGIC_COOKIE ∧ t = OFFER_MESSAGE_TYPE then some (m, t, u, v) else none

/-- Server-side Request decoding (server.py lines 131 to 133): unpack
the datagram with format !IBQQ and accept it only when both the magic
cookie and the message type match; anything else is ignored. -/
def decodeRequest (data : List Nat) : Option (Nat × Nat × Nat × Nat) :=
  match unpack_IBQQ data with
  | none => none
  | some (m, t, fs, sid) =>
    if m = OFFER_MAGIC_COOKIE ∧ t = REQUEST_MESSAGE_TYPE then some (m, t, fs, sid) else none

/-- Client-side Payload header decoding (client.py lines 162 to 169):
datagrams shorter than the 21-byte header are skipped, otherwise the
first 21 bytes are unpacked with format !IBQQ and the result is kept
only when the cookie and type byte match. -/
def decodePayloadHeader (data : List Nat) : Option (Nat × Nat × Nat × Nat) :=
  if data.length < 21 then none
  else
    match unpack_IBQQ (data.take 21) with
    | none => none
    | some (m, t, total, seq) =>
      if m = OFFER_MAGIC_COOKIE ∧ t = PAYLOAD_MESSAGE_TYPE then some (m, t, total, seq) else none

/-- Payload datagram built by the UDP server handler (server.py lines
147 to 152): the 21-byte !IBQQ header followed by filler bytes 65
(the character A) up to a total length of 1024. -/
def mkPayloadDatagram (total seq : Nat) : List Nat :=
  let header := pack_IBQQ OFFER_MAGIC_COOKIE PAYLOAD_MESSAGE_TYPE total seq
  header ++ List.replicate (1024 - header.length) 65

/-- UDP request handler (server.py handle_client_udp, lines 120 to
165): unpack the request with format !IBQQ (exceptions from a wrongly
sized datagram are swallowed and cause no sends), drop it unless cookie
and type match, then send one payload datagram per segment index in
range (file_size over 1024), each to the requesting address.  The
shutdown event is modelled as never set and every send succeeds, which
is the situation the claims condition on. -/
def handle_client_udp {α : Type} (data : List Nat) (addr : α) : List (α × List Nat) :=
  match unpack_IBQQ data with
  | none => []
  | some (magic_cookie, msg_type, file_size, _) =>
    if magic_cookie = OFFER_MAGIC_COOKIE ∧ msg_type = REQUEST_MESSAGE_TYPE then
      (List.range (file_size / 1024)).map
        (fun segment => (addr, mkPayloadDatagram (file_size / 1024) segment))
    else []

/-- The Offer message the beacon packs once at startup (server.py
lines 40 to 44). -/
def offer_message : List Nat :=
  pack_IBHH OFFER_MAGIC_COOKIE OFFER_MESSAGE_TYPE UDP_SERVER_PORT TCP_SERVER_PORT

/-- Destination of every beacon send (server.py line 48): the literal
address 172.20.10.15 on UDP_BROADCAST_PORT, modelled as a dotted-quad
tuple paired with the port number. -/
def offer_destination : (Nat × Nat × Nat × Nat) × Nat :=
  ((172, 20, 10, 15), UDP_BROADCAST_PORT)

/-- Modelled from the spec: the network broadcast address that section
4.2 says the beacon must target (limited broadcast 255.255.255.255);
present only to compare against the address the code actually uses. -/
def specNetworkBroadcastAddr : Nat × Nat × Nat × Nat := (255, 255, 255, 255)

/-- Beacon loop (server.py udp_offer_broadcast, lines 46 to 51) under
the assumption that every send succeeds: one send of offer_message to
offer_destination per one-second tick, until the shutdown event is
observed after the given number of ticks. -/
def udp_offer_broadcast (ticksUntilStop : Nat) : List (((Nat × Nat × Nat × Nat) × Nat) × List Nat) :=
  List.replicate ticksUntilStop (offer_destination, offer_message)

/-- Beacon loop with per-tick send outcomes (server.py lines 46 to 51):
the k-th list element tells whether the k-th sendto call succeeds, and
the trace ends when the shutdown event is observed.  The loop body has
no try/except, so a failing send raises out of the while loop into the
finally block that closes the socket.  Returns the number of sendto
calls attempted and whether the loop ended by an escaping exception. -/
def udp_offer_broadcast_sends : List Bool → Nat → Nat × Bool
  | [], attempted => (attempted, false)
  | ok :: rest, attempted =>
    if ok then udp_offer_broadcast_sends rest (attempted + 1) else (attempted + 1, true)

/-- Whitespace set stripped by the Python str.strip method: exactly
the 29 code points for which str.isspace returns true (Unicode 14.0,
the table CPython 3.11 ships; this set has been stable for many
Unicode versions). -/
def isPySpace (c : Char) : Bool :=
  ([0x9, 0xa, 0xb, 0xc, 0xd, 0x1c, 0x1d, 0x1e, 0x1f, 0x20,
    0x85, 0xa0, 0x1680, 0x2000, 0x2001, 0x2002, 0x2003, 0x2004, 0x2005,
    0x2006, 0x2007, 0x2008, 0x2009, 0x200a, 0x2028, 0x2029, 0x202f,
    0x205f, 0x3000] : List Nat).contains c.toNat

/-- Embedding of the Python str.strip method: removes leading and
trailing characters from the isspace set. -/
def pyStrip (s : List Char) : List Char :=
  ((s.dropWhile isPySpace).reverse.dropWhile isPySpace).reverse

/-- Start code points of the runs of the Unicode general category Nd
(decimal digit); each run holds the digits of value 0 to 9 at
consecutive code points (Unicode 14.0, the table CPython 3.11 ships,
verified against unicodedata: 66 runs, ASCII first). -/
def ndRangeStarts : List Nat :=
  [0x30, 0x660, 0x6f0, 0x7c0, 0x966, 0x9e6, 0xa66, 0xae6, 0xb66, 0xbe6,
   0xc66, 0xce6, 0xd66, 0xde6, 0xe50, 0xed0, 0xf20, 0x1040, 0x1090, 0x17e0,
   0x1810, 0x1946, 0x19d0, 0x1a80, 0x1a90, 0x1b50, 0x1bb0, 0x1c40, 0x1c50,
   0xa620, 0xa8d0, 0xa900, 0xa9d0, 0xa9f0, 0xaa50, 0xabf0, 0xff10, 0x104a0,
   0x10d30, 0x11066, 0x110f0, 0x11136, 0x111d0, 0x112f0, 0x11450, 0x114d0,
   0x11650, 0x116c0, 0x11730, 0x118e0, 0x11950, 0x11c50, 0x11d50, 0x11da0,
   0x16a60, 0x16ac0, 0x16b50, 0x1d7ce, 0x1d7d8, 0x1d7e2, 0x1d7ec, 0x1d7f6,
   0x1e140, 0x1e2f0, 0x1e950, 0x1fbf0]

/-- Decimal digit value of a character under Python int() semantics:
the offset of the character inside its Nd run, when it belongs to one
(int accepts every Nd digit of any script with that value). -/
def pyDecDigitVal (c : Char) : Option Nat :=
  ndRangeStarts.findSome?
    (fun b => if b ≤ c.toNat ∧ c.toNat < b + 10 then some (c.toNat - b) else none)

/-- Decimal value of an all-Nd digit string, as int() computes it. -/
def digitsToNat (s : List Char) : Nat :=
  s.foldl (fun acc c => acc * 10 + (pyDecDigitVal c).getD 0) 0

/-- Size-request parsing of the TCP handler (server.py lines 60 to
70), on the text obtained from decode with errors ignored: an empty
read closes the connection; the stripped text is accepted exactly when
it is nonempty and every character is an Nd decimal digit, in which
case int() yields its base-10 value.  This is the composite observable
behavior of the isdigit test plus the int call: a single-character
isdigit is true exactly on Nd digits plus 128 further digit-property
characters (superscripts, circled digits and similar), and on any
stripped string containing one of those int() raises ValueError, which
the handler-wide except catches after zero filler bytes were sent -
the same outcome as failing the isdigit test (verified against CPython
3.11 over all code points). -/
def parseSizeRequest (raw : List Char) : Option Nat :=
  if raw = [] then none
  else
    let s := pyStrip raw
    if s ≠ [] ∧ s.all (fun c => (pyDecDigitVal c).isSome) then some (digitsToNat s)
    else none

/-- Chunked send loop of the TCP handler (server.py lines 73 to 79)
with the shutdown event never set: repeatedly send
min 8192 (file_size - bytes_sent) filler bytes while bytes_sent is
below file_size; the returned list holds the chunk sizes in order. -/
def sendChunks (fileSize : Nat) (bytesSent : Nat) : List Nat :=
  if h : bytesSent < fileSize then
    let chunk := min 8192 (fileSize - bytesSent)
    chunk :: sendChunks fileSize (bytesSent + chunk)
  else []
termination_by fileSize - bytesSent
decreasing_by
  have h1 : 1 ≤ min 8192 (fileSize - bytesSent) := le_min (by norm_num) (by omega)
  have h2 := Nat.min_le_right 8192 (fileSize - bytesSent)
  omega

/-- TCP connection handler (server.py handle_client_tcp, lines 54 to
86), observed through the list of filler chunks it sends: an invalid
size request sends nothing, a valid one runs the chunked send loop. -/
def handle_client_tcp (raw : List Char) : List Nat :=
  match parseSizeRequest raw with
  | none => []
  | some file_size => sendChunks file_size 0

/-- One observable event of the UDP client receive loop (client.py
lines 157 to 191): either the recvfrom call times out after one
second, or a datagram arrives with the given bytes. -/
inductive UdpEvent : Type
  | timeout : UdpEvent
  | datagram : List Nat → UdpEvent
deriving DecidableEq

/-- Mutable state of the UDP client receive loop (client.py lines 150
to 155): the set of sequence numbers seen (the packets dict, kept here
as the list of its keys), the received unique count, and the counter
of timeouts since the last fresh sequence number. -/
structure UdpState where
  packets : List Nat
  received_packets : Nat
  no_data_count : Nat
deriving DecidableEq

/-- Initial loop state (client.py lines 150 to 155). -/
def initUdpState : UdpState := ⟨[], 0, 0⟩

/-- One iteration of the UDP client receive loop (client.py lines 157
to 191).  A timeout increments no_data_count and breaks once it
exceeds max_no_data = 5.  A datagram is decoded; invalid datagrams are
skipped with no state change.  A valid payload inserts its sequence
number if fresh (incrementing the unique count and resetting
no_data_count), then breaks when the unique count has reached the
total declared by this very datagram.  Returns the next state and
whether the loop breaks. -/
def udpStep (s : UdpState) (e : UdpEvent) : UdpState × Bool :=
  match e with
  | UdpEvent.timeout =>
    let n := s.no_data_count + 1
    (⟨s.packets, s.received_packets, n⟩, decide (5 < n))
  | UdpEvent.datagram d =>
    match decodePayloadHeader d with
    | none => (s, false)
    | some (_, _, total, seq) =>
      let s1 : UdpState :=
        if seq ∈ s.packets then s
        else ⟨seq :: s.packets, s.received_packets + 1, 0⟩
      (s1, decide (total ≤ s1.received_packets))

/-- The UDP client receive loop run over a finite event trace: events
are consumed in order until some iteration breaks; the second
component records whether a break occurred within the trace. -/
def udpLoop : UdpState → List UdpEvent → UdpState × Bool
  | s, [] => (s, false)
  | s, e :: es =>
    match udpStep s e with
    | (s1, true) => (s1, true)
    | (s1, false) => udpLoop s1 es

/-- Completion statistics of the UDP client (client.py lines 193 to
195): the received unique count, and the reported loss computed as
expected minus received where expected is file_size over 1024 (an
integer, since the Python subtraction can go negative). -/
def udp_test_stats (file_size : Nat) (events : List UdpEvent) : Nat × Int :=
  let s := (udpLoop initUdpState events).1
  (s.received_packets, ((file_size / 1024 : Nat) : Int) - (s.received_packets : Int))

/-- Helper for specMaxTimeoutRun: scans the trace carrying the current
run length and the best run length seen so far. -/
def timeoutRunsAux : List UdpEvent → Nat → Nat → Nat
  | [], cur, best => max cur best
  | UdpEvent.timeout :: es, cur, best => timeoutRunsAux es (cur + 1) (max (cur + 1) best)
  | UdpEvent.datagram _ :: es, _, best => timeoutRunsAux es 0 best

/-- Modelled from the claim wording of C3: the length of the longest
run of consecutive timeout events in a trace. -/
def specMaxTimeoutRun (events : List UdpEvent) : Nat :=
  timeoutRunsAux events 0 0

/-- Modelled from the claim wording of C3: the total_segments value
declared by the first valid Payload of a trace, if any. -/
def specFirstDeclaredTotal : List UdpEvent → Option Nat
  | [] => none
  | UdpEvent.timeout :: es => specFirstDeclaredTotal es
  | UdpEvent.datagram d :: es =>
    match decodePayloadHeader d with
    | some (_, _, total, _) => some total
    | none => specFirstDeclaredTotal es

/-- Whether every valid payload in an event trace declares the given
total_segments value (invalid datagrams and timeouts are ignored). -/
def declaresTotalB (total : Nat) : UdpEvent → Bool
  | UdpEvent.timeout => true
  | UdpEvent.datagram d =>
    match decodePayloadHeader d with
    | some (_, _, t, _) => decide (t = total)
    | none => true

/-- Byte-collecting loop of the TCP client (client.py lines 100 to
107): while bytes_received is below file_size, consume the next recv
result; an empty chunk raises (premature close) and a nonempty chunk
is added in full.  The argument list holds the sizes of the successive
recv results; the loop stops consuming at an empty chunk or once the
target is reached, and the returned value is bytes_received at that
point. -/
def tcpRecvLoop (file_size : Nat) : Nat → List Nat → Nat
  | bytes_received, [] => bytes_received
  | bytes_received, c :: cs =>
    if bytes_received < file_size then
      if c = 0 then bytes_received else tcpRecvLoop file_size (bytes_received + c) cs
    else bytes_received

/-- Retry loop of the TCP client (client.py tcp_test, lines 86 to
125) with the shutdown event never set.  The outcome function tells
whether the k-th attempt (a fresh socket each time) succeeds; an
attempt that fails decrements the retry budget and sleeps one second
only when budget remains.  Returns success, the number of one-second
backoff waits, and the number of attempts made. -/
def tcpRetryLoop (outcome : Nat → Bool) : Nat → Nat → Nat → Bool × Nat × Nat
  | 0, idx, backoffs => (false, backoffs, idx)
  | r + 1, idx, backoffs =>
    if outcome idx then (true, backoffs, idx + 1)
    else
      match r with
      | 0 => (false, backoffs, idx + 1)
      | _ + 1 => tcpRetryLoop outcome r (idx + 1) (backoffs + 1)

/-- The TCP client transfer with its fixed budget of three attempts
(client.py line 87). -/
def tcp_test (outcome : Nat → Bool) : Bool × Nat × Nat :=
  tcpRetryLoop outcome 3 0 0

/-- Event trace used to refute the stated C3 termination condition: a
valid payload declaring 100 total segments with sequence 0, followed
by six repetitions of one timeout and one duplicate of that payload. -/
def c3trace : List UdpEvent :=
  [UdpEvent.datagram (pack_IBQQ OFFER_MAGIC_COOKIE PAYLOAD_MESSAGE_TYPE 100 0),
   UdpEvent.timeout,
   UdpEvent.datagram (pack_IBQQ OFFER_MAGIC_COOKIE PAYLOAD_MESSAGE_TYPE 100 0),
   UdpEvent.timeout,
   UdpEvent.datagram (pack_IBQQ OFFER_MAGIC_COOKIE PAYLOAD_MESSAGE_TYPE 100 0),
   UdpEvent.timeout,
   UdpEvent.datagram (pack_IBQQ OFFER_MAGIC_COOKIE PAYLOAD_MESSAGE_TYPE 100 0),
   UdpEvent.timeout,
   UdpEvent.datagram (pack_IBQQ OFFER_MAGIC_COOKIE PAYLOAD_MESSAGE_TYPE 100 0),
   UdpEvent.timeout,
   UdpEvent.datagram (pack_IBQQ OFFER_MAGIC_COOKIE PAYLOAD_MESSAGE_TYPE 100 0),
   UdpEvent.timeout]

theorem length_beBytes (w n : Nat) : (beBytes w n).length = w := by
  induction w generalizing n with
  | zero => rfl
  | succ w ih => simp [beBytes, ih]

theorem readBE_beBytes (w : Nat) : ∀ (n acc : Nat), n < 256 ^ w → ∀ (rest : List Nat),
    readBE w acc (beBytes w n ++ rest) = some (acc * 256 ^ w + n, rest) := by
  induction w with
  | zero =>
    intro n acc hn rest
    interval_cases n
    simp [beBytes, readBE]
  | succ w ih =>
    intro n acc hn rest
    have hpow : 0 < 256 ^ w := Nat.pos_pow_of_pos w (by norm_num)
    have hdiv : n / 256 ^ w < 256 := by
      rw [Nat.div_lt_iff_lt_mul hpow]
      calc n < 256 ^ (w + 1) := hn
        _ = 256 * 256 ^ w := by rw [pow_succ]; ring
    have hmod : n % 256 ^ w < 256 ^ w := Nat.mod_lt _ hpow
    simp only [beBytes, List.cons_append, readBE]
    rw [List.append_eq, Nat.mod_eq_of_lt hdiv, ih (n % 256 ^ w) _ hmod rest]
    congr 2
    have := Nat.div_add_mod n (256 ^ w)
    calc (acc * 256 + n / 256 ^ w) * 256 ^ w + n % 256 ^ w
        = acc * (256 ^ w * 256) + (256 ^ w * (n / 256 ^ w) + n % 256 ^ w) := by ring
      _ = acc * 256 ^ (w + 1) + n := by rw [this, pow_succ]

/-- Big-endian reader on an exact-width buffer. -/
theorem readBE_beBytes_nil (w n acc : Nat) (h : n < 256 ^ w) :
    readBE w acc (beBytes w n) = some (acc * 256 ^ w + n, []) := by
  have := readBE_beBytes w n acc h []
  simpa using this

theorem length_pack_IBHH (a b c d : Nat) : (pack_IBHH a b c d).length = 9 := by
  simp [pack_IBHH, length_beBytes]

theorem length_pack_IBQQ (a b c d : Nat) : (pack_IBQQ a b c d).length = 21 := by
  simp [pack_IBQQ, length_beBytes]

theorem unpack_pack_IBHH (a b c d : Nat)
    (ha : a < 256 ^ 4) (hb : b < 256 ^ 1) (hc : c < 256 ^ 2) (hd : d < 256 ^ 2) :
    unpack_IBHH (pack_IBHH a b c d) = some (a, b, c, d) := by
  unfold pack_IBHH unpack_IBHH
  simp only [List.append_assoc, readBE_beBytes 4 a 0 ha, readBE_beBytes 1 b 0 hb,
    readBE_beBytes 2 c 0 hc, readBE_beBytes_nil 2 d 0 hd]
  simp

theorem unpack_pack_IBQQ (a b c d : Nat)
    (ha : a < 256 ^ 4) (hb : b < 256 ^ 1) (hc : c < 256 ^ 8) (hd : d < 256 ^ 8) :
    unpack_IBQQ (pack_IBQQ a b c d) = some (a, b, c, d) := by
  unfold pack_IBQQ unpack_IBQQ
  simp only [List.append_assoc, readBE_beBytes 4 a 0 ha, readBE_beBytes 1 b 0 hb,
    readBE_beBytes 8 c 0 hc, readBE_beBytes_nil 8 d 0 hd]
  simp

theorem decodePayloadHeader_mk (total seq : Nat)
    (ht : total < 256 ^ 8) (hs : seq < 256 ^ 8) :
    decodePayloadHeader (mkPayloadDatagram total seq) =
      some (OFFER_MAGIC_COOKIE, PAYLOAD_MESSAGE_TYPE, total, seq) := by
  have hlen : (pack_IBQQ OFFER_MAGIC_COOKIE PAYLOAD_MESSAGE_TYPE total seq).length = 21 :=
    length_pack_IBQQ _ _ _ _
  have hdlen : (mkPayloadDatagram total seq).length = 1024 := by
    simp only [mkPayloadDatagram, List.length_append, List.length_replicate, hlen]
  have htake : (mkPayloadDatagram total seq).take 21 =
      pack_IBQQ OFFER_MAGIC_COOKIE PAYLOAD_MESSAGE_TYPE total seq := by
    rw [mkPayloadDatagram]
    rw [List.take_append_of_le_length (by rw [hlen])]
    exact List.take_of_length_le (by rw [hlen])
  rw [decodePayloadHeader, if_neg (by omega), htake,
    unpack_pack_IBQQ _ _ _ _ (by norm_num [OFFER_MAGIC_COOKIE]) (by norm_num [PAYLOAD_MESSAGE_TYPE]) ht hs]
  simp

theorem sendChunks_sum_aux (fileSize : Nat) :
    ∀ (k bytesSent : Nat), fileSize - bytesSent ≤ k →
      (sendChunks fileSize bytesSent).sum = fileSize - bytesSent := by
  intro k
  induction k with
  | zero =>
    intro s hs
    rw [sendChunks]
    have hns : ¬ s < fileSize := by omega
    simp [hns]
    omega
  | succ k ih =>
    intro s hs
    rw [sendChunks]
    by_cases h : s < fileSize
    · have h1 : 1 ≤ min 8192 (fileSize - s) := le_min (by norm_num) (by omega)
      have h2 := Nat.min_le_right 8192 (fileSize - s)
      simp only [h, dif_pos, List.sum_cons]
      rw [ih (s + min 8192 (fileSize - s)) (by omega)]
      omega
    · simp [h]
      omega

theorem sendChunks_sum (fileSize : Nat) : (sendChunks fileSize 0).sum = fileSize := by
  have := sendChunks_sum_aux fileSize fileSize 0 (by omega)
  simpa using this

theorem sendChunks_bounds_aux (fileSize : Nat) :
    ∀ (k bytesSent : Nat), fileSize - bytesSent ≤ k →
      ∀ c ∈ sendChunks fileSize bytesSent, 1 ≤ c ∧ c ≤ 8192 := by
  intro k
  induction k with
  | zero =>
    intro s hs c hc
    rw [sendChunks] at hc
    have hns : ¬ s < fileSize := by omega
    simp [hns] at hc
  | succ k ih =>
    intro s hs c hc
    rw [sendChunks] at hc
    by_cases h : s < fileSize
    · have h1 : 1 ≤ min 8192 (fileSize - s) := le_min (by norm_num) (by omega)
      have h2 := Nat.min_le_right 8192 (fileSize - s)
      simp only [h, dif_pos, List.mem_cons] at hc
      rcases hc with hc | hc
      · subst hc
        exact ⟨h1, Nat.min_le_left _ _⟩
      · exact ih (s + min 8192 (fileSize - s)) (by omega) c hc
    · simp [h] at hc

theorem handle_client_udp_some {α : Type} (data : List Nat) (addr : α) (m t fs sid : Nat)
    (h : unpack_IBQQ data = some (m, t, fs, sid)) :
    handle_client_udp data addr =
      if m = OFFER_MAGIC_COOKIE ∧ t = REQUEST_MESSAGE_TYPE then
        (List.range (fs / 1024)).map
          (fun segment => (addr, mkPayloadDatagram (fs / 1024) segment))
      else [] := by
  rw [handle_client_udp, h]

theorem handle_client_udp_none {α : Type} (data : List Nat) (addr : α)
    (h : unpack_IBQQ data = none) :
    handle_client_udp data addr = [] := by
  rw [handle_client_udp, h]

theorem length_mkPayloadDatagram (total seq : Nat) :
    (mkPayloadDatagram total seq).length = 1024 := by
  simp only [mkPayloadDatagram, List.length_append, List.length_replicate,
    length_pack_IBQQ]

theorem mkPayloadDatagram_eq (total seq : Nat) :
    mkPayloadDatagram total seq =
      pack_IBQQ OFFER_MAGIC_COOKIE PAYLOAD_MESSAGE_TYPE total seq ++ List.replicate 1003 65 := by
  simp only [mkPayloadDatagram, length_pack_IBQQ]

theorem decodePayloadHeader_pack (total seq : Nat)
    (ht : total < 256 ^ 8) (hs : seq < 256 ^ 8) :
    decodePayloadHeader (pack_IBQQ OFFER_MAGIC_COOKIE PAYLOAD_MESSAGE_TYPE total seq) =
      some (OFFER_MAGIC_COOKIE, PAYLOAD_MESSAGE_TYPE, total, seq) := by
  have hlen := length_pack_IBQQ OFFER_MAGIC_COOKIE PAYLOAD_MESSAGE_TYPE total seq
  rw [decodePayloadHeader, if_neg (by omega), List.take_of_length_le (by omega),
    unpack_pack_IBQQ _ _ _ _ (by norm_num [OFFER_MAGIC_COOKIE])
      (by norm_num [PAYLOAD_MESSAGE_TYPE]) ht hs]
  simp

/-- C6: for every valid message value, decoding the encoding returns
the original fields: the Offer round-trip between the server encoder
and the client decoder, the Request round-trip between the client
encoder and the server decoder, and the Payload header round-trip
between the server encoder and the client decoder (both on the bare
21-byte header and on the full padded 1024-byte datagram the server
actually sends). -/
theorem c6_codec_round_trip (u v fs sid tot seq : Nat)
    (hu : u < 2 ^ 16) (hv : v < 2 ^ 16) (hfs : fs < 2 ^ 64) (hsid : sid < 2 ^ 64)
    (htot : tot < 2 ^ 64) (hseq : seq < 2 ^ 64) :
    decodeOffer (pack_IBHH OFFER_MAGIC_COOKIE OFFER_MESSAGE_TYPE u v) =
      some (OFFER_MAGIC_COOKIE, OFFER_MESSAGE_TYPE, u, v) ∧
    decodeRequest (pack_IBQQ OFFER_MAGIC_COOKIE REQUEST_MESSAGE_TYPE fs sid) =
      some (OFFER_MAGIC_COOKIE, REQUEST_MESSAGE_TYPE, fs, sid) ∧
    decodePayloadHeader (pack_IBQQ OFFER_MAGIC_COOKIE PAYLOAD_MESSAGE_TYPE tot seq) =
      some (OFFER_MAGIC_COOKIE, PAYLOAD_MESSAGE_TYPE, tot, seq) ∧
    decodePayloadHeader (mkPayloadDatagram tot seq) =
      some (OFFER_MAGIC_COOKIE, PAYLOAD_MESSAGE_TYPE, tot, seq) := by
  have e2 : (2 : Nat) ^ 16 = 256 ^ 2 := by norm_num
  have e8 : (2 : Nat) ^ 64 = 256 ^ 8 := by norm_num
  refine ⟨?_, ?_, ?_, ?_⟩
  · rw [decodeOffer, unpack_pack_IBHH _ _ _ _ (by norm_num [OFFER_MAGIC_COOKIE])
      (by norm_num [OFFER_MESSAGE_TYPE]) (e2 ▸ hu) (e2 ▸ hv)]
    simp
  · rw [decodeRequest, unpack_pack_IBQQ _ _ _ _ (by norm_num [OFFER_MAGIC_COOKIE])
      (by norm_num [REQUEST_MESSAGE_TYPE]) (e8 ▸ hfs) (e8 ▸ hsid)]
    simp
  · exact decodePayloadHeader_pack tot seq (e8 ▸ htot) (e8 ▸ hseq)
  · exact decodePayloadHeader_mk tot seq (e8 ▸ htot) (e8 ▸ hseq)

theorem c6_codec_round_trip_witness :
    decodeOffer (pack_IBHH OFFER_MAGIC_COOKIE OFFER_MESSAGE_TYPE 20001 20002) =
      some (OFFER_MAGIC_COOKIE, OFFER_MESSAGE_TYPE, 20001, 20002) ∧
    decodeRequest (pack_IBQQ OFFER_MAGIC_COOKIE REQUEST_MESSAGE_TYPE 10240 1) =
      some (OFFER_MAGIC_COOKIE, REQUEST_MESSAGE_TYPE, 10240, 1) ∧
    decodePayloadHeader (pack_IBQQ OFFER_MAGIC_COOKIE PAYLOAD_MESSAGE_TYPE 10 3) =
      some (OFFER_MAGIC_COOKIE, PAYLOAD_MESSAGE_TYPE, 10, 3) ∧
    decodePayloadHeader (mkPayloadDatagram 10 3) =
      some (OFFER_MAGIC_COOKIE, PAYLOAD_MESSAGE_TYPE, 10, 3) :=
  c6_codec_round_trip 20001 20002 10240 1 10 3 (by norm_num) (by norm_num)
    (by norm_num) (by norm_num) (by norm_num) (by norm_num)

/-- C10: every Payload datagram the UDP server emits, for any inbound
datagram whatsoever, is exactly 1024 bytes long: the 21-byte packed
header followed by 1003 filler bytes with value 65. -/
theorem c10_payload_datagram_is_1024 {α : Type} (data : List Nat) (addr : α) :
    ∀ p ∈ handle_client_udp data addr,
      (p.2).length = 1024 ∧
      ∃ tot seq, p.2 =
        pack_IBQQ OFFER_MAGIC_COOKIE PAYLOAD_MESSAGE_TYPE tot seq ++ List.replicate 1003 65 := by
  intro p hp
  rcases hres : unpack_IBQQ data with _ | ⟨m, t, fs, sid⟩
  · rw [handle_client_udp_none data addr hres] at hp
    simp at hp
  · rw [handle_client_udp_some data addr m t fs sid hres] at hp
    by_cases hok : m = OFFER_MAGIC_COOKIE ∧ t = REQUEST_MESSAGE_TYPE
    · rw [if_pos hok] at hp
      obtain ⟨seg, hseg, rfl⟩ := List.mem_map.1 hp
      exact ⟨length_mkPayloadDatagram _ _, fs / 1024, seg, mkPayloadDatagram_eq _ _⟩
    · rw [if_neg hok] at hp
      simp at hp

set_option maxRecDepth 40000 in
theorem c10_payload_datagram_is_1024_witness :
    ((0 : Nat), mkPayloadDatagram 2 0).2.length = 1024 :=
  (c10_payload_datagram_is_1024
    (pack_IBQQ OFFER_MAGIC_COOKIE REQUEST_MESSAGE_TYPE 2048 7) (0 : Nat)
    ((0 : Nat), mkPayloadDatagram 2 0) (by decide)).1

/-- C1: for every valid Request datagram carrying file_size, the UDP
server handler emits exactly file_size over 1024 Payload datagrams,
all to the requesting address, whose headers decode to the zero-based
sequence numbers 0 up to that count minus one with the same constant
total_segments value throughout (shutdown unset, all sends succeed). -/
theorem c1_udp_server_emits_segments {α : Type} (fs sid : Nat) (addr : α)
    (hfs : fs < 2 ^ 64) (hsid : sid < 2 ^ 64) :
    (handle_client_udp (pack_IBQQ OFFER_MAGIC_COOKIE REQUEST_MESSAGE_TYPE fs sid) addr).length
        = fs / 1024 ∧
    (∀ p ∈ handle_client_udp (pack_IBQQ OFFER_MAGIC_COOKIE REQUEST_MESSAGE_TYPE fs sid) addr,
      p.1 = addr) ∧
    (handle_client_udp (pack_IBQQ OFFER_MAGIC_COOKIE REQUEST_MESSAGE_TYPE fs sid) addr).map
        (fun p => decodePayloadHeader p.2) =
      (List.range (fs / 1024)).map
        (fun i => some (OFFER_MAGIC_COOKIE, PAYLOAD_MESSAGE_TYPE, fs / 1024, i)) := by
  have e8 : (2 : Nat) ^ 64 = 256 ^ 8 := by norm_num
  have hunp := unpack_pack_IBQQ OFFER_MAGIC_COOKIE REQUEST_MESSAGE_TYPE fs sid
    (by norm_num [OFFER_MAGIC_COOKIE]) (by norm_num [REQUEST_MESSAGE_TYPE])
    (e8 ▸ hfs) (e8 ▸ hsid)
  have hout : handle_client_udp (pack_IBQQ OFFER_MAGIC_COOKIE REQUEST_MESSAGE_TYPE fs sid) addr
      = (List.range (fs / 1024)).map
          (fun segment => (addr, mkPayloadDatagram (fs / 1024) segment)) := by
    rw [handle_client_udp_some _ addr _ _ _ _ hunp, if_pos ⟨rfl, rfl⟩]
  refine ⟨?_, ?_, ?_⟩
  · rw [hout]
    simp
  · intro p hp
    rw [hout] at hp
    obtain ⟨seg, hseg, rfl⟩ := List.mem_map.1 hp
    rfl
  · rw [hout, List.map_map]
    apply List.map_congr_left
    intro i hi
    have hi' : i < fs / 1024 := List.mem_range.1 hi
    have h1024 : fs / 1024 < 2 ^ 64 := lt_of_le_of_lt (Nat.div_le_self fs 1024) hfs
    exact decodePayloadHeader_mk (fs / 1024) i (e8 ▸ h1024) (e8 ▸ (hi'.trans h1024))

theorem c1_udp_server_emits_segments_witness :
    (handle_client_udp (pack_IBQQ OFFER_MAGIC_COOKIE REQUEST_MESSAGE_TYPE 2048 7)
      (0 : Nat)).length = 2048 / 1024 :=
  (c1_udp_server_emits_segments 2048 7 (0 : Nat) (by norm_num) (by norm_num)).1

theorem udpStep_timeout (s : UdpState) :
    udpStep s UdpEvent.timeout =
      (⟨s.packets, s.received_packets, s.no_data_count + 1⟩,
        decide (5 < s.no_data_count + 1)) := rfl

theorem udpStep_datagram_none (s : UdpState) (d : List Nat)
    (h : decodePayloadHeader d = none) :
    udpStep s (UdpEvent.datagram d) = (s, false) := by
  rw [udpStep, h]

theorem udpStep_datagram_some (s : UdpState) (d : List Nat) (c t total seq : Nat)
    (h : decodePayloadHeader d = some (c, t, total, seq)) :
    udpStep s (UdpEvent.datagram d) =
      (if seq ∈ s.packets then s else ⟨seq :: s.packets, s.received_packets + 1, 0⟩,
        decide (total ≤
          (if seq ∈ s.packets then s
           else (⟨seq :: s.packets, s.received_packets + 1, 0⟩ : UdpState)).received_packets)) := by
  rw [udpStep, h]

theorem udpLoop_cons (s : UdpState) (e : UdpEvent) (es : List UdpEvent) :
    udpLoop s (e :: es) =
      match udpStep s e with
      | (s1, true) => (s1, true)
      | (s1, false) => udpLoop s1 es := rfl

theorem udpStep_received_of_mem (s : UdpState) (d : List Nat) (c t total seq : Nat)
    (h : decodePayloadHeader d = some (c, t, total, seq)) (hmem : seq ∈ s.packets) :
    ((udpStep s (UdpEvent.datagram d)).1).received_packets = s.received_packets := by
  rw [udpStep_datagram_some s d c t total seq h]
  simp [hmem]

theorem udpStep_mem_packets (s : UdpState) (d : List Nat) (c t total seq : Nat)
    (h : decodePayloadHeader d = some (c, t, total, seq)) :
    seq ∈ ((udpStep s (UdpEvent.datagram d)).1).packets := by
  rw [udpStep_datagram_some s d c t total seq h]
  by_cases hmem : seq ∈ s.packets
  · simp [hmem]
  · simp [hmem]

/-- C2: a valid Payload whose sequence number is already recorded does
not increment the received-unique count; consequently feeding the same
sequence twice (even via two different datagrams) counts it once; and
the loss reported at completion is the expected count, file_size over
1024, minus the received-unique count. -/
theorem c2_udp_client_dedup_and_loss :
    (∀ (s : UdpState) (d : List Nat) (c t total seq : Nat),
      decodePayloadHeader d = some (c, t, total, seq) → seq ∈ s.packets →
      ((udpStep s (UdpEvent.datagram d)).1).received_packets = s.received_packets) ∧
    (∀ (s : UdpState) (d d' : List Nat) (c t total c' t' total' seq : Nat),
      decodePayloadHeader d = some (c, t, total, seq) →
      decodePayloadHeader d' = some (c', t', total', seq) →
      ((udpStep (udpStep s (UdpEvent.datagram d)).1 (UdpEvent.datagram d')).1).received_packets
        = ((udpStep s (UdpEvent.datagram d)).1).received_packets) ∧
    (∀ (fs : Nat) (events : List UdpEvent),
      (udp_test_stats fs events).2 =
        ((fs / 1024 : Nat) : Int) - ((udp_test_stats fs events).1 : Int)) := by
  refine ⟨?_, ?_, ?_⟩
  · intro s d c t total seq h hmem
    exact udpStep_received_of_mem s d c t total seq h hmem
  · intro s d d' c t total c' t' total' seq h h'
    exact udpStep_received_of_mem _ d' c' t' total' seq h'
      (udpStep_mem_packets s d c t total seq h)
  · intro fs events
    rfl

set_option maxRecDepth 4000 in
theorem c2_udp_client_dedup_and_loss_witness :
    ((udpStep (udpStep (UdpState.mk [] 0 0)
        (UdpEvent.datagram (pack_IBQQ OFFER_MAGIC_COOKIE PAYLOAD_MESSAGE_TYPE 5 3))).1
        (UdpEvent.datagram (pack_IBQQ OFFER_MAGIC_COOKIE PAYLOAD_MESSAGE_TYPE 5 3))).1).received_packets
      = ((udpStep (UdpState.mk [] 0 0)
        (UdpEvent.datagram (pack_IBQQ OFFER_MAGIC_COOKIE PAYLOAD_MESSAGE_TYPE 5 3))).1).received_packets :=
  c2_udp_client_dedup_and_loss.2.1 (UdpState.mk [] 0 0)
    (pack_IBQQ OFFER_MAGIC_COOKIE PAYLOAD_MESSAGE_TYPE 5 3)
    (pack_IBQQ OFFER_MAGIC_COOKIE PAYLOAD_MESSAGE_TYPE 5 3)
    OFFER_MAGIC_COOKIE PAYLOAD_MESSAGE_TYPE 5 OFFER_MAGIC_COOKIE PAYLOAD_MESSAGE_TYPE 5 3
    (by decide) (by decide)

set_option maxRecDepth 8000 in
/-- C3 counterexample: on this trace the receive loop breaks even
though the received-unique count (1) never reaches the total declared
by the first valid Payload (100) and the longest run of consecutive
receive-timeouts is 1, never exceeding 5.  The loop exits because the
no-data counter is reset only by a payload carrying a fresh sequence
number, so duplicates interleaved between single timeouts let the
counter climb past 5. -/
theorem c3_termination_counterexample :
    (udpLoop initUdpState c3trace).2 = true ∧
    ((udpLoop initUdpState c3trace).1).received_packets = 1 ∧
    specFirstDeclaredTotal c3trace = some 100 ∧
    specMaxTimeoutRun c3trace = 1 := by
  refine ⟨by decide, by decide, by decide, by decide⟩

/-- C3 amended: one loop iteration breaks exactly when either the
event is a timeout that pushes the no-data counter (reset only by
fresh sequence numbers) above 5, or the event is a valid Payload after
whose processing the received-unique count has reached the total
declared by that very payload (the most recently received total, not
the first). -/
theorem c3_break_condition (s : UdpState) (e : UdpEvent) :
    (udpStep s e).2 = true ↔
      ((e = UdpEvent.timeout ∧ 5 < s.no_data_count + 1) ∨
       (∃ d c t total seq, e = UdpEvent.datagram d ∧
         decodePayloadHeader d = some (c, t, total, seq) ∧
         total ≤ ((udpStep s e).1).received_packets)) := by
  cases e with
  | timeout =>
    rw [udpStep_timeout]
    simp only [decide_eq_true_eq]
    constructor
    · intro h
      refine Or.inl ⟨?_, h⟩
      trivial
    · rintro (⟨_, h⟩ | ⟨d, c, t, total, seq, he, _, _⟩)
      · exact h
      · exact UdpEvent.noConfusion he
  | datagram d =>
    rcases hdec : decodePayloadHeader d with _ | ⟨c, t, total, seq⟩
    · rw [udpStep_datagram_none s d hdec]
      simp only [Bool.false_eq_true, false_iff]
      rintro (⟨he, _⟩ | ⟨d', c, t, total, seq, he, hd', _⟩)
      · exact UdpEvent.noConfusion he
      · obtain rfl : d = d' := UdpEvent.datagram.inj he
        rw [hdec] at hd'
        exact Option.noConfusion hd'
    · rw [udpStep_datagram_some s d c t total seq hdec]
      simp only [decide_eq_true_eq]
      constructor
      · intro h
        exact Or.inr ⟨d, c, t, total, seq, rfl, hdec, h⟩
      · rintro (⟨he, _⟩ | ⟨d', c', t', total', seq', he, hd', hle⟩)
        · exact UdpEvent.noConfusion he
        · obtain rfl : d = d' := UdpEvent.datagram.inj he
          rw [hdec] at hd'
          simp only [Option.some.injEq, Prod.mk.injEq] at hd'
          obtain ⟨rfl, rfl, rfl, rfl⟩ := hd'
          exact hle

/-- C9 counterexample: the TCP client adds each whole recv chunk while
still below the target, so a peer that answers a request for 5000
bytes with a single 8192-byte chunk drives bytes_received to 8192,
above the requested size, refuting the never-exceeds claim for
adversarial peers. -/
theorem c9_overrun_counterexample :
    tcpRecvLoop 5000 0 [8192] = 8192 ∧ 5000 < 8192 := by
  refine ⟨by decide, by decide⟩

theorem tcpRecvLoop_le_aux :
    ∀ (cs : List Nat) (fs rec : Nat), tcpRecvLoop fs rec cs ≤ rec + cs.sum := by
  intro cs
  induction cs with
  | nil =>
    intro fs rec
    simp [tcpRecvLoop]
  | cons c cs ih =>
    intro fs rec
    rw [tcpRecvLoop]
    by_cases hlt : rec < fs
    · rw [if_pos hlt]
      by_cases hc : c = 0
      · rw [if_pos hc]
        omega
      · rw [if_neg hc]
        have := ih fs (rec + c)
        simp only [List.sum_cons]
        omega
    · rw [if_neg hlt]
      omega

theorem udpStep_received_bound (T : Nat) (s : UdpState) (e : UdpEvent)
    (he : declaresTotalB T e = true) (hlt : s.received_packets < T) :
    ((udpStep s e).1).received_packets ≤ T ∧
    ((udpStep s e).2 = false → ((udpStep s e).1).received_packets < T) := by
  cases e with
  | timeout =>
    rw [udpStep_timeout]
    exact ⟨le_of_lt hlt, fun _ => hlt⟩
  | datagram d =>
    rcases hdec : decodePayloadHeader d with _ | ⟨c, t, total, seq⟩
    · rw [udpStep_datagram_none s d hdec]
      exact ⟨le_of_lt hlt, fun _ => hlt⟩
    · have htot : total = T := by
        rw [declaresTotalB, hdec] at he
        exact of_decide_eq_true he
      subst htot
      rw [udpStep_datagram_some s d c t total seq hdec]
      by_cases hmem : seq ∈ s.packets
      · rw [if_pos hmem]
        exact ⟨le_of_lt hlt, fun _ => hlt⟩
      · rw [if_neg hmem]
        constructor
        · show s.received_packets + 1 ≤ total
          omega
        · intro hfalse
          show s.received_packets + 1 < total
          have hnot : ¬ (total ≤ s.received_packets + 1) := of_decide_eq_false hfalse
          omega

theorem udpLoop_received_le_aux (T : Nat) :
    ∀ (events : List UdpEvent) (s : UdpState),
      s.received_packets < T → events.all (declaresTotalB T) = true →
      ((udpLoop s events).1).received_packets ≤ T := by
  intro events
  induction events with
  | nil =>
    intro s hlt _
    exact le_of_lt hlt
  | cons e es ih =>
    intro s hlt hall
    rw [List.all_cons, Bool.and_eq_true] at hall
    have hbound := udpStep_received_bound T s e hall.1 hlt
    rcases hstep : udpStep s e with ⟨s1, b⟩
    rw [udpLoop_cons, hstep]
    cases b with
    | true =>
      show s1.received_packets ≤ T
      have := hbound.1
      rw [hstep] at this
      exact this
    | false =>
      show ((udpLoop s1 es).1).received_packets ≤ T
      have hs1 : s1.received_packets < T := by
        have := hbound.2
        rw [hstep] at this
        exact this rfl
      exact ih s1 hs1 hall.2

/-- C9 amended: the delivered count never exceeds the declared total
under the conditions a conforming peer guarantees: the TCP client
count of bytes received stays at or below the requested size whenever
the chunks the peer delivers sum to at most that size (the server
sends exactly that many bytes), and the UDP client received-unique
count stays at or below the total T declared by the payloads whenever
every valid payload of the transfer declares the same total T of at
least 1.  Without these provisos the claim fails, as the recorded
counterexample shows. -/
theorem c9_delivered_within_declared_total :
    (∀ (fs : Nat) (chunks : List Nat),
      chunks.sum ≤ fs → tcpRecvLoop fs 0 chunks ≤ fs) ∧
    (∀ (T : Nat) (events : List UdpEvent),
      1 ≤ T → events.all (declaresTotalB T) = true →
      ((udpLoop initUdpState events).1).received_packets ≤ T) := by
  constructor
  · intro fs chunks hsum
    have := tcpRecvLoop_le_aux chunks fs 0
    omega
  · intro T events hT hall
    exact udpLoop_received_le_aux T events initUdpState (by simpa [initUdpState] using hT) hall

set_option maxRecDepth 4000 in
theorem c9_delivered_within_declared_total_witness :
    tcpRecvLoop 5000 0 [4096, 904] ≤ 5000 ∧
    ((udpLoop initUdpState
        [UdpEvent.datagram (pack_IBQQ OFFER_MAGIC_COOKIE PAYLOAD_MESSAGE_TYPE 2 0)]).1).received_packets
      ≤ 2 :=
  ⟨c9_delivered_within_declared_total.1 5000 [4096, 904] (by decide),
   c9_delivered_within_declared_total.2 2
     [UdpEvent.datagram (pack_IBQQ OFFER_MAGIC_COOKIE PAYLOAD_MESSAGE_TYPE 2 0)]
     (by decide) (by decide)⟩

theorem tcpRetryLoop_attempts_le (outcome : Nat → Bool) :
    ∀ (r idx b : Nat), (tcpRetryLoop outcome r idx b).2.2 ≤ idx + r := by
  intro r
  induction r with
  | zero =>
    intro idx b
    simp [tcpRetryLoop]
  | succ r ih =>
    intro idx b
    cases r with
    | zero =>
      have step : tcpRetryLoop outcome 1 idx b =
          if outcome idx then (true, b, idx + 1) else (false, b, idx + 1) := rfl
      rw [step]
      by_cases hout : outcome idx
      · rw [if_pos hout]
      · rw [if_neg hout]
    | succ r' =>
      have step : tcpRetryLoop outcome (r' + 1 + 1) idx b =
          if outcome idx then (true, b, idx + 1)
          else tcpRetryLoop outcome (r' + 1) (idx + 1) (b + 1) := rfl
      rw [step]
      by_cases hout : outcome idx
      · rw [if_pos hout]
        show idx + 1 ≤ idx + (r' + 1 + 1)
        omega
      · rw [if_neg hout]
        have := ih (idx + 1) (b + 1)
        omega

/-- C7: the TCP client makes at most 3 attempts per transfer, and an
outcome sequence that fails on the first two attempts (with a fresh
connection per attempt) and succeeds on the third yields a success
with exactly 2 one-second backoff waits and 3 attempts. -/
theorem c7_tcp_retry_budget (outcome : Nat → Bool) :
    (tcp_test outcome).2.2 ≤ 3 ∧
    (outcome 0 = false → outcome 1 = false → outcome 2 = true →
      tcp_test outcome = (true, 2, 3)) := by
  constructor
  · have := tcpRetryLoop_attempts_le outcome 3 0 0
    simpa using this
  · intro h0 h1 h2
    show tcpRetryLoop outcome 3 0 0 = (true, 2, 3)
    rw [show tcpRetryLoop outcome 3 0 0
        = if outcome 0 then (true, 0, 1) else tcpRetryLoop outcome 2 1 1 from rfl,
      h0, if_neg (by simp),
      show tcpRetryLoop outcome 2 1 1
        = if outcome 1 then (true, 1, 2) else tcpRetryLoop outcome 1 2 2 from rfl,
      h1, if_neg (by simp),
      show tcpRetryLoop outcome 1 2 2
        = if outcome 2 then (true, 2, 3) else (false, 2, 3) from rfl,
      h2, if_pos rfl]

theorem c7_tcp_retry_budget_witness :
    (tcp_test (fun i => decide (i = 2))).2.2 ≤ 3 ∧
    tcp_test (fun i => decide (i = 2)) = (true, 2, 3) :=
  ⟨(c7_tcp_retry_budget (fun i => decide (i = 2))).1,
   (c7_tcp_retry_budget (fun i => decide (i = 2))).2 (by decide) (by decide) (by decide)⟩

/-- C8: for every accepted TCP connection, an initial read whose
stripped text is not a valid non-negative decimal integer (in
particular an empty read, or a digit-property string on which int()
raises) makes the server close with zero filler bytes sent, while a
valid decimal integer N, in any Unicode script and with any
strip-removable surrounding whitespace, makes it stream chunks that
sum to exactly N bytes, each chunk between 1 and 8192 bytes (shutdown
unset, sends succeed). -/
theorem c8_tcp_server_streams_exact_size (raw : List Char) :
    (parseSizeRequest raw = none → handle_client_tcp raw = []) ∧
    (∀ N, parseSizeRequest raw = some N →
      (handle_client_tcp raw).sum = N ∧
      ∀ c ∈ handle_client_tcp raw, 1 ≤ c ∧ c ≤ 8192) := by
  constructor
  · intro h
    rw [handle_client_tcp, h]
  · intro N h
    have hout : handle_client_tcp raw = sendChunks N 0 := by
      rw [handle_client_tcp, h]
    rw [hout]
    exact ⟨sendChunks_sum N, sendChunks_bounds_aux N N 0 (by omega)⟩

theorem c8_tcp_server_streams_exact_size_witness :
    (handle_client_tcp ['5', '0', '0', '0', '\n']).sum = 5000 ∧
    (handle_client_tcp ['5', Char.ofNat 0x1c]).sum = 5 ∧
    (handle_client_tcp [Char.ofNat 0x663]).sum = 3 ∧
    (handle_client_tcp ['5', '0', '0', '0', Char.ofNat 0xa0]).sum = 5000 ∧
    handle_client_tcp [Char.ofNat 0xb2] = [] :=
  ⟨((c8_tcp_server_streams_exact_size ['5', '0', '0', '0', '\n']).2 5000 (by decide)).1,
   ((c8_tcp_server_streams_exact_size ['5', Char.ofNat 0x1c]).2 5 (by decide)).1,
   ((c8_tcp_server_streams_exact_size [Char.ofNat 0x663]).2 3 (by decide)).1,
   ((c8_tcp_server_streams_exact_size ['5', '0', '0', '0', Char.ofNat 0xa0]).2 5000 (by decide)).1,
   (c8_tcp_server_streams_exact_size [Char.ofNat 0xb2]).1 (by decide)⟩

/-- C4 code-bug evidence: the beacon loop sends every Offer to the
hardcoded unicast address 172.20.10.15 on port 13117, which is not the
network broadcast address the spec prescribes (the socket even enables
SO_BROADCAST and the function docstring says it broadcasts); evaluated
here on a one-tick run. -/
theorem c4_beacon_sends_to_unicast :
    udp_offer_broadcast 1 = [(((172, 20, 10, 15), 13117), offer_message)] ∧
    offer_destination.1 ≠ specNetworkBroadcastAddr := by
  refine ⟨rfl, by decide⟩

/-- C5 counterexample: with three ticks available before shutdown and
the very first send failing, the beacon attempts exactly one send and
the loop terminates through the escaping exception; it does not retry
on the next tick (the claim would demand three attempted sends). -/
theorem c5_send_error_counterexample :
    udp_offer_broadcast_sends [false, true, true] 0 = (1, true) := by decide

theorem c5_fatal_aux (post : List Bool) :
    ∀ (pre : List Bool), (∀ b ∈ pre, b = true) → ∀ (n : Nat),
      udp_offer_broadcast_sends (pre ++ false :: post) n = (n + pre.length + 1, true) := by
  intro pre
  induction pre with
  | nil =>
    intro _ n
    simp [udp_offer_broadcast_sends]
  | cons b bs ih =>
    intro h n
    have hb : b = true := h b (List.mem_cons_self b bs)
    subst hb
    rw [List.cons_append, udp_offer_broadcast_sends, if_pos rfl,
      ih (fun x hx => h x (List.mem_cons_of_mem true hx)) (n + 1)]
    have : n + 1 + bs.length + 1 = n + (true :: bs).length + 1 := by
      simp [List.length_cons]
      omega
    rw [this]

/-- C5 amended: a send failure in the Discovery Beacon loop is fatal:
the loop body has no exception handling, so the first failing send
raises out of the while loop into the finally block; the number of
attempted sends is the number of successful ticks before it plus one,
and no later tick is attempted, whatever would have remained. -/
theorem c5_send_error_is_fatal (pre post : List Bool)
    (hpre : ∀ b ∈ pre, b = true) :
    udp_offer_broadcast_sends (pre ++ false :: post) 0 = (pre.length + 1, true) := by
  have := c5_fatal_aux post pre hpre 0
  simpa using this

theorem c5_send_error_is_fatal_witness :
    udp_offer_broadcast_sends ([true, true] ++ false :: [true]) 0
      = ([true, true].length + 1, true) :=
  c5_send_error_is_fatal [true, true] [true] (by decide)

end SpeedTest
